import Mathlib

/-!
Verification development for the MCP proxy service (src/src/mcp_proxy.ts, the
file launched by start.sh).  The service bridges synchronous HTTP callers to a
legacy target that answers over one long-lived server-sent-event (SSE) stream
per target.  The definitions below are a shallow embedding of the relevant
parts of that file:

* JavaScript strings are modelled as `List Char` (all data handled by the
  service is plain text); the JS string operations used by the source
  (split, trim, slice, startsWith, join) are modelled by structurally
  recursive functions so that every definition evaluates inside the kernel.
* `JSON.parse` is modelled by `Json.parse`, a recursive-descent parser over
  a `Json` value tree.  JSON numbers are modelled as integers: the payloads
  this service correlates carry integer or string correlation ids, and no
  claim depends on fractional numerals (a numeral with a fraction or an
  exponent is rejected by the model parser).
* The per-connection `Map` of pending response promises
  (`responsePromises: Map<string, ...>`) is modelled as an association list
  with JS `Map` semantics (`mapGet?`, `mapSet`, `mapDelete`, `mapHas`).
  A pending promise pair `(resolve, reject)` is modelled as an opaque
  `PendingCall` token; delivering a value to `resolve`/`reject` is modelled
  by returning the affected token together with the delivered payload.
* The asynchronous handlers of the SSE listener (`startSseResponseListener`)
  and of the timeout timer registered by `forwardToTarget` are modelled as
  explicit state transformers on the `Connection` record: `processSseEvent`
  (one complete SSE event), `onStreamEnd` (graceful end of stream),
  `onStreamError` (transport-level read error) and `onSseTimeout` (the
  `setTimeout` callback).
-/

/-! Model of the JS string primitives used by the source, on `List Char`. -/

/-- Model of `text.split(c)` for a one-character separator. -/
def splitOnCharAux (c : Char) : List Char → List Char → List (List Char)
  | [], acc => [acc.reverse]
  | x :: xs, acc =>
    if x = c then acc.reverse :: splitOnCharAux c xs [] else splitOnCharAux c xs (x :: acc)

/-- Model of `text.split(c)` for a one-character separator. -/
def splitOnChar (c : Char) (s : List Char) : List (List Char) :=
  splitOnCharAux c s []

/-- Model of splitting on the two-character separator `"\n\n"`, matching the
sequential `indexOf / substring` loop of `startSseResponseListener`
(mcp_proxy.ts lines 365-368): leftmost, non-overlapping occurrences. -/
def splitOnBlankLineAux : List Char → List Char → List (List Char)
  | [], acc => [acc.reverse]
  | '\n' :: '\n' :: xs, acc => acc.reverse :: splitOnBlankLineAux xs []
  | x :: xs, acc => splitOnBlankLineAux xs (x :: acc)

/-- Model of splitting a buffer on blank-line (`"\n\n"`) boundaries. -/
def splitOnBlankLine (s : List Char) : List (List Char) :=
  splitOnBlankLineAux s []

/-- Model of `text.trim()`: strip leading and trailing whitespace. -/
def jsTrim (s : List Char) : List Char :=
  ((s.dropWhile Char.isWhitespace).reverse.dropWhile Char.isWhitespace).reverse

/-! Model of JSON values and of `JSON.parse`. -/

/-- A parsed JSON value.  Numbers are modelled as integers (see the module
comment). -/
inductive Json where
  | null
  | bool (b : Bool)
  | num (n : Int)
  | str (s : List Char)
  | arr (elems : List Json)
  | obj (fields : List (List Char × Json))

/-- The opening-brace character, kept as a named constant. -/
def lbraceChar : Char := '\x7b'

/-- The closing-brace character, kept as a named constant. -/
def rbraceChar : Char := '\x7d'

/-- JSON whitespace characters accepted between tokens. -/
def isJsonWs (c : Char) : Bool :=
  [' ', '\t', '\n', '\r'].contains c

/-- Drop leading JSON whitespace. -/
def skipWs (s : List Char) : List Char :=
  s.dropWhile isJsonWs

/-- Decimal digit test (code points 48 to 57). -/
def isJsonDigit (c : Char) : Bool :=
  decide (48 ≤ c.toNat ∧ c.toNat ≤ 57)

/-- Value of a hexadecimal digit, if any, computed on code points: digits
are 48 to 57, lowercase a to f are 97 to 102, uppercase A to F are 65 to 70. -/
def hexDigitVal (c : Char) : Option Nat :=
  let n := c.toNat
  if 48 ≤ n ∧ n ≤ 57 then some (n - 48)
  else if 97 ≤ n ∧ n ≤ 102 then some (n - 87)
  else if 65 ≤ n ∧ n ≤ 70 then some (n - 55)
  else none

/-- Numeric value of a run of decimal digits (accumulator form). -/
def digitsToNat : Nat → List Char → Nat
  | acc, [] => acc
  | acc, d :: ds => digitsToNat (acc * 10 + (d.toNat - 48)) ds

/-- Parse a nonempty run of decimal digits, returning its value and the rest. -/
def parseDigitRun (s : List Char) : Option (Nat × List Char) :=
  let ds := s.takeWhile isJsonDigit
  if ds.isEmpty then none else some (digitsToNat 0 ds, s.dropWhile isJsonDigit)

/-- Parse an integer JSON numeral (optional leading minus). -/
def parseJsonNumber (s : List Char) : Option (Json × List Char) :=
  match s with
  | '-' :: rest => (parseDigitRun rest).map (fun p => (Json.num (-(p.1 : Int)), p.2))
  | _ => (parseDigitRun s).map (fun p => (Json.num (p.1 : Int), p.2))

/-- Parse the body of a JSON string literal after its opening quote, handling
escape sequences; returns the decoded characters and the rest of the input. -/
def parseJsonStringBody : Nat → List Char → Option (List Char × List Char)
  | 0, _ => none
  | _, [] => none
  | fuel + 1, c :: rest =>
    if c == '"' then some ([], rest)
    else if c == '\\' then
      match rest with
      | [] => none
      | e :: rest2 =>
        if e == 'u' then
          match rest2 with
          | h1 :: h2 :: h3 :: h4 :: rest3 =>
            match hexDigitVal h1, hexDigitVal h2, hexDigitVal h3, hexDigitVal h4 with
            | some a, some b, some c2, some d =>
              (parseJsonStringBody fuel rest3).map
                (fun p => (Char.ofNat (((a * 16 + b) * 16 + c2) * 16 + d) :: p.1, p.2))
            | _, _, _, _ => none
          | _ => none
        else
          match
            (if e == '"' then some '"'
             else if e == '\\' then some '\\'
             else if e == '/' then some '/'
             else if e == 'n' then some '\n'
             else if e == 't' then some '\t'
             else if e == 'r' then some '\r'
             else if e == 'b' then some (Char.ofNat 8)
             else if e == 'f' then some (Char.ofNat 12)
             else none) with
          | some d => (parseJsonStringBody fuel rest2).map (fun p => (d :: p.1, p.2))
          | none => none
    else (parseJsonStringBody fuel rest).map (fun p => (c :: p.1, p.2))

mutual

/-- Parse one JSON value (fuel-bounded recursive descent). -/
def parseJsonValue : Nat → List Char → Option (Json × List Char)
  | 0, _ => none
  | fuel + 1, s =>
    match skipWs s with
    | [] => none
    | c :: rest =>
      if c == '"' then
        (parseJsonStringBody (rest.length + 1) rest).map (fun p => (Json.str p.1, p.2))
      else if c == 't' then
        if List.isPrefixOf ("rue".data) rest then some (Json.bool true, rest.drop 3) else none
      else if c == 'f' then
        if List.isPrefixOf ("alse".data) rest then some (Json.bool false, rest.drop 4) else none
      else if c == 'n' then
        if List.isPrefixOf ("ull".data) rest then some (Json.null, rest.drop 3) else none
      else if c == '[' then
        match skipWs rest with
        | ']' :: r2 => some (Json.arr [], r2)
        | _ => (parseJsonElems fuel rest).map (fun p => (Json.arr p.1, p.2))
      else if c == lbraceChar then
        match skipWs rest with
        | r :: r2 =>
          if r == rbraceChar then some (Json.obj [], r2)
          else (parseJsonFields fuel rest).map (fun p => (Json.obj p.1, p.2))
        | [] => none
      else if c == '-' || isJsonDigit c then parseJsonNumber (c :: rest)
      else none

/-- Parse the comma-separated elements of a JSON array up to `]`. -/
def parseJsonElems : Nat → List Char → Option (List Json × List Char)
  | 0, _ => none
  | fuel + 1, s =>
    match parseJsonValue fuel s with
    | none => none
    | some (v, r) =>
      match skipWs r with
      | ',' :: r2 => (parseJsonElems fuel r2).map (fun p => (v :: p.1, p.2))
      | ']' :: r2 => some ([v], r2)
      | _ => none

/-- Parse the comma-separated members of a JSON object up to the closing
brace. -/
def parseJsonFields : Nat → List Char → Option (List (List Char × Json) × List Char)
  | 0, _ => none
  | fuel + 1, s =>
    match skipWs s with
    | [] => none
    | c :: rest =>
      if c == '"' then
        match parseJsonStringBody (rest.length + 1) rest with
        | none => none
        | some (key, r) =>
          match skipWs r with
          | ':' :: r2 =>
            match parseJsonValue fuel r2 with
            | none => none
            | some (v, r3) =>
              match skipWs r3 with
              | ',' :: r4 => (parseJsonFields fuel r4).map (fun p => ((key, v) :: p.1, p.2))
              | d :: r4 => if d == rbraceChar then some ([(key, v)], r4) else none
              | [] => none
          | _ => none
      else none

end

/-- Model of `JSON.parse(s)`: parse one value and require that only
whitespace remains; on any failure the model returns `none` where the source
throws a `SyntaxError`. -/
def Json.parse (s : List Char) : Option Json :=
  match parseJsonValue (s.length + 1) s with
  | some (v, rest) => if (skipWs rest).isEmpty then some v else none
  | none => none

/-! JavaScript value semantics used by the listener: truthiness of `json.id`
and `json.id.toString()`. -/

/-- JS truthiness of a JSON value: `null`, `false`, the number `0` and the
empty string are falsy; arrays and objects are always truthy. -/
def Json.truthy : Json → Bool
  | .null => false
  | .bool b => b
  | .num n => !(n == 0)
  | .str s => !s.isEmpty
  | .arr _ => true
  | .obj _ => true

/-- JS truthiness of an optional field value; an absent field (`undefined`)
is falsy. -/
def jsTruthy : Option Json → Bool
  | none => false
  | some j => j.truthy

mutual

/-- Model of JS `value.toString()` on a JSON value: numbers print in decimal,
strings are themselves, arrays join their elements with commas, plain objects
print as `[object Object]`. -/
def Json.toJsChars : Json → List Char
  | .null => "null".data
  | .bool true => "true".data
  | .bool false => "false".data
  | .num n => (Int.repr n).data
  | .str s => s
  | .arr xs => jsonElemsToJsChars xs
  | .obj _ => "[object Object]".data

/-- Comma-joined rendering of array elements, as JS `Array.prototype.toString`. -/
def jsonElemsToJsChars : List Json → List Char
  | [] => []
  | [x] => Json.toJsChars x
  | x :: y :: xs => Json.toJsChars x ++ ',' :: jsonElemsToJsChars (y :: xs)

end

/-- Model of JS property access `json.f` on a parsed value: defined only on
objects, `undefined` (here `none`) otherwise. -/
def Json.getField : Json → List Char → Option Json
  | .obj fields, k => (fields.find? (fun p => p.1 == k)).map Prod.snd
  | _, _ => none

/-! Model of `parseSseResponse` (mcp_proxy.ts lines 74-113). -/

/-- Failure modes of `parseSseResponse`: the thrown
`Error("No data in SSE response")` and
`Error("Failed to parse SSE JSON: ...")`. -/
inductive SseError where
  | noData
  | parseFailed
deriving DecidableEq, Repr

/-- The `data:` fragments of an SSE event text (mcp_proxy.ts lines 76-80):
split on newlines, keep the lines starting with `data:`, strip that prefix
(`slice(5)`) and surrounding whitespace, and drop empty fragments. -/
def sseDataLines (sseText : List Char) : List (List Char) :=
  (((splitOnChar '\n' sseText).filter
      (fun line => List.isPrefixOf ("data:".data) line)).map
        (fun line => jsTrim (line.drop 5))).filter
    (fun s => decide (s.length > 0))

/-- Model of `parseSseResponse` (mcp_proxy.ts lines 74-113): fail when no
`data:` fragment is present; otherwise parse the last fragment, and on
failure parse the concatenation (`join`) of all fragments; fail when both
parses fail. -/
def parseSseResponse (sseText : List Char) : Except SseError Json :=
  match (sseDataLines sseText).getLast? with
  | none => Except.error SseError.noData
  | some lastLine =>
    match Json.parse lastLine with
    | some parsed => Except.ok parsed
    | none =>
      match Json.parse (sseDataLines sseText).flatten with
      | some parsed => Except.ok parsed
      | none => Except.error SseError.parseFailed

/-! Data model: pending calls and pooled connections
(interface `CachedConnection`, mcp_proxy.ts lines 6-15). -/

/-- One in-flight call awaiting an asynchronous answer.  The source stores a
`(resolve, reject)` continuation pair; the model stores an opaque token that
identifies the call, so that resolving or failing a specific call is
observable. -/
structure PendingCall where
  token : Nat
deriving DecidableEq, Repr, Inhabited

/-- The pending-call map of one connection
(`responsePromises: Map<string, ...>`). -/
abbrev PendingMap := List (List Char × PendingCall)

/-- Model of `CachedConnection` (mcp_proxy.ts lines 6-15).  The stream reader
handle is not carried: the stream events are fed to the transition functions
below. -/
structure Connection where
  sessionId : List Char
  postUrl : List Char
  baseUrl : List Char
  ssePath : List Char
  lastUsed : Int
  isHealthy : Bool
  responsePromises : PendingMap
deriving DecidableEq, Repr

/-! JS `Map` operations on the pending-call map.  A JS `Map` holds at most
one entry per key; `set` overwrites the entry in place when the key is
present and appends otherwise, `delete` removes the entry of the key. -/

/-- Model of `map.has(k)`: some entry holds the key. -/
def mapHas : PendingMap → List Char → Bool
  | [], _ => false
  | p :: m, k => p.1 == k || mapHas m k

/-- Model of `map.get(k)` (with `undefined` as `none`): the value of the
entry holding the key. -/
def mapGet? : PendingMap → List Char → Option PendingCall
  | [], _ => none
  | p :: m, k => if p.1 == k then some p.2 else mapGet? m k

/-- Model of `map.set(k, v)`: overwrite the entry holding `k`, or append a
new entry when `k` is absent. -/
def mapSet : PendingMap → List Char → PendingCall → PendingMap
  | [], k, v => [(k, v)]
  | p :: m, k, v => if p.1 == k then (k, v) :: m else p :: mapSet m k v

/-- Model of `map.delete(k)`. -/
def mapDelete (m : PendingMap) (k : List Char) : PendingMap :=
  m.filter (fun p => !(p.1 == k))

/-! Configuration constants (mcp_proxy.ts lines 20-21 and 151). -/

/-- `CACHE_TTL = 15 * 60 * 1000` milliseconds (mcp_proxy.ts line 20). -/
def CACHE_TTL : Int := 15 * 60 * 1000

/-- `CLEANUP_INTERVAL = 5 * 60 * 1000` milliseconds (mcp_proxy.ts line 21). -/
def CLEANUP_INTERVAL : Int := 5 * 60 * 1000

/-- The fixed per-call timeout passed to `setTimeout` in `forwardToTarget`
(mcp_proxy.ts line 151), in milliseconds. -/
def SSE_RESPONSE_TIMEOUT_MS : Nat := 30000

/-! Transition functions of the SSE response listener
(`startSseResponseListener`, mcp_proxy.ts lines 347-408) and of the other
handlers that touch a connection. -/

/-- What processing one complete SSE event did (the body of the inner loop,
mcp_proxy.ts lines 370-388): resolve the pending call registered under the
correlation id of the parsed message, discard an unmatched or id-less
message, or log a parse failure. -/
inductive DemuxResult where
  | resolved (id : List Char) (call : PendingCall) (msg : Json)
  | unmatched (msg : Json)
  | parseError (e : SseError)

/-- Split the accumulated buffer into the complete SSE events (those
terminated by a blank line) and the remaining incomplete tail
(mcp_proxy.ts lines 365-368). -/
def extractSseEvents (buffer : List Char) : List (List Char) × List Char :=
  ((splitOnBlankLine buffer).dropLast, (splitOnBlankLine buffer).getLastD [])

/-- Model of processing one complete SSE event (mcp_proxy.ts lines 372-388):
parse the event text; on success, when `json.id` is truthy and an entry is
registered under `json.id.toString()`, delete that entry and resolve it with
the message, otherwise discard the message; a parse failure is logged and
changes nothing. -/
def processSseEvent (conn : Connection) (eventText : List Char) :
    Connection × DemuxResult :=
  match parseSseResponse eventText with
  | Except.error e => (conn, DemuxResult.parseError e)
  | Except.ok json =>
    match json.getField ("id".data) with
    | none => (conn, DemuxResult.unmatched json)
    | some idv =>
      if idv.truthy then
        match mapGet? conn.responsePromises idv.toJsChars with
        | some call =>
          ({ conn with responsePromises := mapDelete conn.responsePromises idv.toJsChars },
           DemuxResult.resolved idv.toJsChars call json)
        | none => (conn, DemuxResult.unmatched json)
      else (conn, DemuxResult.unmatched json)

/-- Model of the graceful end-of-stream branch (mcp_proxy.ts lines 355-359):
mark the connection unhealthy and stop; the pending-call map is not touched. -/
def onStreamEnd (conn : Connection) : Connection :=
  { conn with isHealthy := false }

/-- Model of the transport-error handler (mcp_proxy.ts lines 391-402): mark
the connection unhealthy, reject every currently registered pending call with
the caught error, and clear the map.  The second component lists the
rejections delivered, each carrying the same underlying error. -/
def onStreamError {ε : Type} (conn : Connection) (err : ε) :
    Connection × List (PendingCall × ε) :=
  ({ conn with isHealthy := false, responsePromises := [] },
   conn.responsePromises.map (fun p => (p.2, err)))

/-- Model of the cache-hit test of `getConnection` (mcp_proxy.ts lines
211-216): a cached connection is reused only when present and healthy;
otherwise a fresh connection is established. -/
def usesCachedConnection : Option Connection → Bool
  | some c => c.isHealthy
  | none => false

/-- Model of the `setTimeout` callback registered by `forwardToTarget`
(mcp_proxy.ts lines 146-151): when the request id is still registered, delete
its entry and reject with the timeout error message; otherwise do nothing. -/
def onSseTimeout (conn : Connection) (requestId method : List Char) :
    Connection × Option (List Char) :=
  if mapHas conn.responsePromises requestId then
    ({ conn with responsePromises := mapDelete conn.responsePromises requestId },
     some (("SSE response timeout for ".data) ++ method))
  else (conn, none)

/-! Model of the dispatch path of `forwardToTarget`
(mcp_proxy.ts lines 116-170). -/

/-- The JSON-RPC request envelope built by `forwardToTarget`
(mcp_proxy.ts lines 122-127). -/
structure JsonRpcRequest where
  jsonrpc : List Char
  method : List Char
  params : Json
  id : List Char

/-- The externally visible steps of one dispatch, in execution order. -/
inductive DispatchStep where
  | registerPending (id : List Char)
  | transmitRequest (postUrl : List Char) (request : JsonRpcRequest)

/-- The correlation id generated for one dispatch
(mcp_proxy.ts line 119): `Math.floor(Math.random() * 1000000).toString()`.
The random draw is made explicit as a `Fin 1000000` input. -/
def generatedRequestId (draw : Fin 1000000) : List Char :=
  (Nat.repr draw.val).data

/-- Model of the synchronous prefix of `forwardToTarget`
(mcp_proxy.ts lines 119-170): generate the correlation id, build the request
envelope, register the pending call in the connection map (line 153, inside
the promise executor, which runs synchronously), and only then transmit the
envelope to the submission endpoint (line 166).  Returns the connection after
registration together with the ordered step trace. -/
def forwardToTargetDispatch (conn : Connection) (method : List Char)
    (params : Json) (draw : Fin 1000000) (call : PendingCall) :
    Connection × List DispatchStep :=
  let requestId := generatedRequestId draw
  let request : JsonRpcRequest :=
    { jsonrpc := "2.0".data, method := method, params := params, id := requestId }
  let conn' := { conn with responsePromises := mapSet conn.responsePromises requestId call }
  (conn', [DispatchStep.registerPending requestId,
           DispatchStep.transmitRequest conn.postUrl request])

/-! Model of the periodic cleanup sweep and of the health endpoint. -/

/-- Model of the cleanup interval body (mcp_proxy.ts lines 25-38): delete
every cache entry whose idle time strictly exceeds `CACHE_TTL`; nothing else
is touched. -/
def cleanupExpiredConnections (now : Int)
    (cache : List (List Char × Connection)) : List (List Char × Connection) :=
  cache.filter (fun p => !(decide (now - p.2.lastUsed > CACHE_TTL)))

/-- The JSON body answered by the health endpoint
(`handleHealthCheck`, mcp_proxy.ts lines 477-487). -/
structure HealthData where
  status : List Char
  connections : Nat
  timestamp : List Char
deriving DecidableEq, Repr

/-- Model of `handleHealthCheck` (mcp_proxy.ts lines 477-487): report the
fixed status string, the number of cached connections (`connectionCache.size`)
and the current time as an ISO string. -/
def handleHealthCheck (cache : List (List Char × Connection))
    (nowIso : List Char) : HealthData :=
  { status := "healthy".data, connections := cache.length, timestamp := nowIso }

/-- A pooled connection with the given last-used time and pending map, used
to build concrete test states. -/
def mkConn (lu : Int) (promises : PendingMap) : Connection :=
  { sessionId := "sess1".data
    postUrl := "http://h/mcp/messages?sessionId=sess1".data
    baseUrl := "http://h".data
    ssePath := "/mcp".data
    lastUsed := lu
    isHealthy := true
    responsePromises := promises }

/-! Auxiliary lemmas about the map operations and about generated ids. -/

theorem toDigitsCore_length_le (b : Nat) :
    ∀ (fuel n : Nat) (ds : List Char), ds.length ≤ (Nat.toDigitsCore b fuel n ds).length := by
  intro fuel
  induction fuel with
  | zero => intro n ds; simp [Nat.toDigitsCore]
  | succ f ih =>
    intro n ds
    rw [Nat.toDigitsCore]
    split
    · simp
    · exact le_trans (by simp) (ih _ _)

theorem natRepr_data_ne_nil (n : Nat) : (Nat.repr n).data ≠ [] := by
  have h1 : 1 ≤ (Nat.toDigits 10 n).length := by
    unfold Nat.toDigits
    rw [Nat.toDigitsCore]
    split
    · simp
    · exact le_trans (by simp) (toDigitsCore_length_le 10 n _ _)
  have h2 : (Nat.repr n).data = Nat.toDigits 10 n := rfl
  intro hnil
  rw [h2] at hnil
  rw [hnil] at h1
  simp at h1

theorem generatedRequestId_ne_nil (draw : Fin 1000000) : generatedRequestId draw ≠ [] :=
  natRepr_data_ne_nil draw.val

theorem mapGet?_set_self (m : PendingMap) (k : List Char) (v : PendingCall) :
    mapGet? (mapSet m k v) k = some v := by
  induction m with
  | nil => simp [mapSet, mapGet?]
  | cons p m ih =>
    by_cases h : p.1 = k
    · simp [mapSet, mapGet?, h]
    · simp [mapSet, mapGet?, beq_iff_eq, h, ih]

theorem mapGet?_set_ne (m : PendingMap) (k k' : List Char) (v : PendingCall)
    (h : k' ≠ k) : mapGet? (mapSet m k v) k' = mapGet? m k' := by
  induction m with
  | nil => simp [mapSet, mapGet?, beq_iff_eq, Ne.symm h]
  | cons p m ih =>
    by_cases hp : p.1 = k
    · simp [mapSet, mapGet?, beq_iff_eq, hp, Ne.symm h]
    · simp [mapSet, mapGet?, beq_iff_eq, hp, ih]

theorem mapSet_of_not_has (m : PendingMap) (k : List Char) (v : PendingCall)
    (h : mapHas m k = false) : mapSet m k v = m ++ [(k, v)] := by
  induction m with
  | nil => simp [mapSet]
  | cons p m ih =>
    simp only [mapHas, Bool.or_eq_false_iff, beq_eq_false_iff_ne] at h
    simp [mapSet, beq_iff_eq, h.1, ih h.2]

theorem mapHas_eq_false_iff (m : PendingMap) (k : List Char) :
    mapHas m k = false ↔ k ∉ m.map Prod.fst := by
  induction m with
  | nil => simp [mapHas]
  | cons p m ih =>
    by_cases hp : p.1 = k
    · simp [mapHas, hp]
    · have hsym : k ≠ p.1 := Ne.symm hp
      simp [mapHas, beq_eq_false_iff_ne.mpr hp, ih, hsym]

theorem mapHas_delete_self (m : PendingMap) (k : List Char) :
    mapHas (mapDelete m k) k = false := by
  induction m with
  | nil => simp [mapDelete, mapHas]
  | cons p m ih =>
    by_cases hp : p.1 = k
    · simpa [mapDelete, List.filter_cons, hp] using ih
    · simpa [mapDelete, mapHas, List.filter_cons, beq_iff_eq, hp] using ih

theorem mapGet?_delete_ne (m : PendingMap) (k k' : List Char)
    (h : k' ≠ k) : mapGet? (mapDelete m k) k' = mapGet? m k' := by
  induction m with
  | nil => simp [mapDelete, mapGet?]
  | cons p m ih =>
    by_cases hp : p.1 = k
    · have hkk' : ¬ (k = k') := fun he => h he.symm
      simpa [mapDelete, mapGet?, List.filter_cons, hp, beq_iff_eq, hkk'] using ih
    · by_cases hp' : p.1 = k'
      · simp [mapDelete, mapGet?, List.filter_cons, beq_iff_eq, hp, hp', h]
      · simpa [mapDelete, mapGet?, List.filter_cons, beq_iff_eq, hp, hp'] using ih

theorem mapHas_eq_isSome_mapGet? (m : PendingMap) (k : List Char) :
    mapHas m k = (mapGet? m k).isSome := by
  induction m with
  | nil => simp [mapHas, mapGet?]
  | cons p m ih =>
    by_cases hp : p.1 = k
    · simp [mapHas, mapGet?, hp]
    · simpa [mapHas, mapGet?, beq_iff_eq, beq_eq_false_iff_ne.mpr hp, hp] using ih

theorem mapHas_of_mapGet?_eq_some (m : PendingMap) (k : List Char) (v : PendingCall)
    (h : mapGet? m k = some v) : mapHas m k = true := by
  rw [mapHas_eq_isSome_mapGet?, h]
  rfl

/-! Claims about the program, in the order C1 .. C10 of the review. -/

/-- C4: a transport-level read error on a pooled connection fails every
currently registered pending call with that same underlying error, empties
the pending-call map, and marks the connection unhealthy, so the cache-hit
test of `getConnection` rejects the cached entry and the next call to the
target establishes a fresh connection. -/
theorem stream_error_fails_all_pending {ε : Type} (conn : Connection) (err : ε) :
    (onStreamError conn err).1.isHealthy = false
    ∧ (onStreamError conn err).1.responsePromises = []
    ∧ (onStreamError conn err).2 = conn.responsePromises.map (fun p => (p.2, err))
    ∧ (∀ k call, (k, call) ∈ conn.responsePromises → (call, err) ∈ (onStreamError conn err).2)
    ∧ usesCachedConnection (some (onStreamError conn err).1) = false := by
  refine ⟨rfl, rfl, rfl, ?_, rfl⟩
  intro k call hmem
  exact List.mem_map_of_mem (fun p => (p.2, err)) hmem

/-- Closed instance of C4: on a connection with two pending calls, a
transport error rejects both of them with the error value 42. -/
theorem stream_error_fails_all_pending_witness :
    (PendingCall.mk 1, 42) ∈ (onStreamError (mkConn 0 [(("1".data), ⟨0⟩), (("2".data), ⟨1⟩)]) (42 : Nat)).2
    ∧ (onStreamError (mkConn 0 [(("1".data), ⟨0⟩), (("2".data), ⟨1⟩)]) (42 : Nat)).1.isHealthy = false :=
  ⟨(stream_error_fails_all_pending (mkConn 0 [(("1".data), ⟨0⟩), (("2".data), ⟨1⟩)]) 42).2.2.2.1
      ("2".data) ⟨1⟩ (by decide),
   (stream_error_fails_all_pending (mkConn 0 [(("1".data), ⟨0⟩), (("2".data), ⟨1⟩)]) 42).1⟩

/-- C5: the timeout registered with each pending call is 30000 milliseconds,
that is 30 units of one second; when it fires while the call is still
registered it removes the entry and rejects with the timeout error, and when
the entry was already removed (matched answer, connection failure, or an
earlier firing) it does nothing, so matching, explicit failure and timeout
each remove the entry exactly once, whichever happens first. -/
theorem pending_timeout_exactly_once (conn : Connection) (requestId method : List Char)
    (call : PendingCall)
    (h : mapGet? conn.responsePromises requestId = some call) :
    SSE_RESPONSE_TIMEOUT_MS = 30 * 1000
    ∧ onSseTimeout conn requestId method =
        ({ conn with responsePromises := mapDelete conn.responsePromises requestId },
         some (("SSE response timeout for ".data) ++ method))
    ∧ (∀ conn₂ : Connection, mapHas conn₂.responsePromises requestId = false →
        onSseTimeout conn₂ requestId method = (conn₂, none))
    ∧ mapHas (mapDelete conn.responsePromises requestId) requestId = false
    ∧ mapHas (onStreamError conn (0 : Nat)).1.responsePromises requestId = false := by
  have hhas : mapHas conn.responsePromises requestId = true :=
    mapHas_of_mapGet?_eq_some _ _ _ h
  refine ⟨rfl, by simp [onSseTimeout, hhas], ?_, mapHas_delete_self _ _, by simp [onStreamError, mapHas]⟩
  intro conn₂ h2
  simp [onSseTimeout, h2]

/-- Closed instance of C5: the pending call registered under id 7 is removed
and rejected with the timeout message when the timer fires, and a second
firing on the resulting connection does nothing. -/
theorem pending_timeout_exactly_once_witness :
    onSseTimeout (mkConn 0 [(("7".data), ⟨0⟩)]) ("7".data) ("tools/list".data)
      = ({ mkConn 0 [(("7".data), ⟨0⟩)] with
            responsePromises := mapDelete (mkConn 0 [(("7".data), ⟨0⟩)]).responsePromises ("7".data) },
         some (("SSE response timeout for ".data) ++ "tools/list".data))
    ∧ onSseTimeout (mkConn 0 []) ("7".data) ("tools/list".data) = (mkConn 0 [], none) :=
  ⟨(pending_timeout_exactly_once (mkConn 0 [(("7".data), ⟨0⟩)]) ("7".data) ("tools/list".data) ⟨0⟩ rfl).2.1,
   (pending_timeout_exactly_once (mkConn 0 [(("7".data), ⟨0⟩)]) ("7".data) ("tools/list".data) ⟨0⟩ rfl).2.2.1
      (mkConn 0 []) rfl⟩

/-- C6: a graceful end of stream only clears the health flag; the
pending-call map of the connection is left exactly as it was, so the calls
still registered there are neither failed nor removed and only their own
timeouts can settle them. -/
theorem graceful_end_keeps_pending (conn : Connection) :
    onStreamEnd conn = { conn with isHealthy := false }
    ∧ (onStreamEnd conn).responsePromises = conn.responsePromises
    ∧ (onStreamEnd conn).isHealthy = false
    ∧ usesCachedConnection (some (onStreamEnd conn)) = false :=
  ⟨rfl, rfl, rfl, rfl⟩

/-- C7: one run of the periodic sweep keeps the registry entries whose idle
time does not exceed `CACHE_TTL` and drops exactly those whose idle time
strictly exceeds it; the surviving entries are the original connection
records unchanged (the result is a sublist of the registry), the eviction
decision is independent of the pending-call maps (the sweep commutes with an
arbitrary rewrite of every pending-call map), and no pending call is failed
or removed by the sweep. -/
theorem sweep_evicts_only_expired (now : Int) (cache : List (List Char × Connection))
    (f : List Char → Connection → PendingMap) :
    List.Sublist (cleanupExpiredConnections now cache) cache
    ∧ (∀ url conn, (url, conn) ∈ cleanupExpiredConnections now cache ↔
        ((url, conn) ∈ cache ∧ ¬ (now - conn.lastUsed > CACHE_TTL)))
    ∧ cleanupExpiredConnections now
        (cache.map (fun p => (p.1, { p.2 with responsePromises := f p.1 p.2 })))
      = (cleanupExpiredConnections now cache).map
          (fun p => (p.1, { p.2 with responsePromises := f p.1 p.2 }))
    ∧ CACHE_TTL = 15 * 60 * 1000
    ∧ CLEANUP_INTERVAL = 5 * 60 * 1000 := by
  refine ⟨List.filter_sublist _, ?_, ?_, rfl, rfl⟩
  · intro url conn
    simp [cleanupExpiredConnections, List.mem_filter]
  · induction cache with
    | nil => rfl
    | cons p cache ih =>
      by_cases hkeep : now - p.2.lastUsed > CACHE_TTL
      · simpa [cleanupExpiredConnections, List.filter_cons, hkeep] using ih
      · simpa [cleanupExpiredConnections, List.filter_cons, hkeep] using ih

/-- Closed instance of C7: with the clock at `CACHE_TTL + 1`, the sweep
drops the entry last used at time 0 and keeps, unchanged, the entry last
used at time 1, whose connection still carries its pending call. -/
theorem sweep_evicts_only_expired_witness :
    (("t1".data, mkConn 0 []) ∉ cleanupExpiredConnections (CACHE_TTL + 1)
        [(("t1".data), mkConn 0 []), (("t2".data), mkConn 1 [(("5".data), ⟨0⟩)])])
    ∧ (("t2".data, mkConn 1 [(("5".data), ⟨0⟩)]) ∈ cleanupExpiredConnections (CACHE_TTL + 1)
        [(("t1".data), mkConn 0 []), (("t2".data), mkConn 1 [(("5".data), ⟨0⟩)])]) :=
  ⟨fun hmem => absurd
      (((sweep_evicts_only_expired (CACHE_TTL + 1)
          [(("t1".data), mkConn 0 []), (("t2".data), mkConn 1 [(("5".data), ⟨0⟩)])]
          (fun _ c => c.responsePromises)).2.1 ("t1".data) (mkConn 0 [])).mp hmem).2
      (by decide),
   ((sweep_evicts_only_expired (CACHE_TTL + 1)
        [(("t1".data), mkConn 0 []), (("t2".data), mkConn 1 [(("5".data), ⟨0⟩)])]
        (fun _ c => c.responsePromises)).2.1 ("t2".data) (mkConn 1 [(("5".data), ⟨0⟩)])).mpr
     ⟨by decide, by decide⟩⟩

/-- Counterexample to C9 as stated: two registries whose sole pooled
connections have different ages (different last-used times against the same
clock) produce identical health reports, so the ages of the pooled
connections are not observable from the health report; only their count and
a current timestamp are exposed. -/
theorem health_report_hides_ages :
    handleHealthCheck [(("t".data), mkConn 0 [])] ("2026-01-01".data)
      = handleHealthCheck [(("t".data), mkConn 999999 [])] ("2026-01-01".data)
    ∧ (mkConn 0 []).lastUsed ≠ (mkConn 999999 []).lastUsed :=
  ⟨rfl, by decide⟩

/-- C9 amended: the health report exposes the fixed status string, the count
of currently pooled connections and a request timestamp; it is invariant
under any change of the last-used times of the connections, hence exposes no ages. -/
theorem health_report_counts_connections (cache : List (List Char × Connection))
    (ts : List Char) (g : Int → Int) :
    (handleHealthCheck cache ts).connections = cache.length
    ∧ (handleHealthCheck cache ts).status = "healthy".data
    ∧ handleHealthCheck (cache.map (fun p => (p.1, { p.2 with lastUsed := g p.2.lastUsed }))) ts
        = handleHealthCheck cache ts := by
  refine ⟨rfl, rfl, ?_⟩
  simp [handleHealthCheck]

/-- Counterexample to C8 as stated: the correlation id of a dispatch is a
bare random draw with no uniqueness check against the pending-call map.
When the connection already holds a pending call under the key 5 and the
draw yields 5, the generated id equals an already-pending key, and
registering it overwrites (displaces) the existing pending call. -/
theorem dispatch_id_collision_displaces :
    generatedRequestId (5 : Fin 1000000) = "5".data
    ∧ mapHas (mkConn 0 [(("5".data), ⟨0⟩)]).responsePromises ("5".data) = true
    ∧ mapGet? (mkConn 0 [(("5".data), ⟨0⟩)]).responsePromises ("5".data) = some ⟨0⟩
    ∧ mapGet? (forwardToTargetDispatch (mkConn 0 [(("5".data), ⟨0⟩)]) ("tools/list".data)
          (Json.obj []) (5 : Fin 1000000) ⟨1⟩).1.responsePromises ("5".data) = some ⟨1⟩
    ∧ some (PendingCall.mk 1) ≠ some (PendingCall.mk 0) :=
  ⟨rfl, rfl, rfl, rfl, by decide⟩

/-- C8 amended: the generated correlation id is drawn at random from the
1000000 numeric strings with no uniqueness check, so uniqueness among the
currently pending calls holds exactly when the draw misses every pending
key; under that hypothesis registration appends a fresh entry, displaces
nothing (every other key still maps to its old pending call), and keeps the
keys of the map free of duplicates, so every correlation-id key maps to at
most one pending call. -/
theorem dispatch_fresh_id_registers (conn : Connection) (method : List Char)
    (params : Json) (draw : Fin 1000000) (call : PendingCall)
    (hfresh : mapHas conn.responsePromises (generatedRequestId draw) = false) :
    (forwardToTargetDispatch conn method params draw call).1.responsePromises
      = conn.responsePromises ++ [(generatedRequestId draw, call)]
    ∧ mapGet? (forwardToTargetDispatch conn method params draw call).1.responsePromises
        (generatedRequestId draw) = some call
    ∧ (∀ k, k ≠ generatedRequestId draw →
        mapGet? (forwardToTargetDispatch conn method params draw call).1.responsePromises k
          = mapGet? conn.responsePromises k)
    ∧ ((conn.responsePromises.map Prod.fst).Nodup →
        ((forwardToTargetDispatch conn method params draw call).1.responsePromises.map
            Prod.fst).Nodup) := by
  refine ⟨?_, mapGet?_set_self _ _ _, fun k hk => mapGet?_set_ne _ _ _ _ hk, ?_⟩
  · simpa [forwardToTargetDispatch] using
      mapSet_of_not_has conn.responsePromises (generatedRequestId draw) call hfresh
  · intro hnodup
    have happ : (forwardToTargetDispatch conn method params draw call).1.responsePromises
        = conn.responsePromises ++ [(generatedRequestId draw, call)] := by
      simpa [forwardToTargetDispatch] using
        mapSet_of_not_has conn.responsePromises (generatedRequestId draw) call hfresh
    rw [happ]
    have hnotin : generatedRequestId draw ∉ conn.responsePromises.map Prod.fst :=
      (mapHas_eq_false_iff _ _).mp hfresh
    simp [List.nodup_append, hnodup, hnotin]

/-- Closed instance of the amended C8: on a connection whose only pending
key is 9, the draw 7 is fresh, so registration appends the new entry and
the old entry is still reachable under its key. -/
theorem dispatch_fresh_id_registers_witness :
    (forwardToTargetDispatch (mkConn 0 [(("9".data), ⟨0⟩)]) ("tools/list".data)
        (Json.obj []) (7 : Fin 1000000) ⟨3⟩).1.responsePromises
      = [(("9".data), ⟨0⟩), (("7".data), ⟨3⟩)]
    ∧ mapGet? (forwardToTargetDispatch (mkConn 0 [(("9".data), ⟨0⟩)]) ("tools/list".data)
        (Json.obj []) (7 : Fin 1000000) ⟨3⟩).1.responsePromises ("9".data) = some ⟨0⟩ :=
  ⟨(dispatch_fresh_id_registers (mkConn 0 [(("9".data), ⟨0⟩)]) ("tools/list".data)
      (Json.obj []) (7 : Fin 1000000) ⟨3⟩ rfl).1,
   (dispatch_fresh_id_registers (mkConn 0 [(("9".data), ⟨0⟩)]) ("tools/list".data)
      (Json.obj []) (7 : Fin 1000000) ⟨3⟩ rfl).2.2.1 ("9".data) (by decide)⟩

/-- Counterexample to C1 as stated: the frame `data: ` followed by the
payload with the numeric id 0 parses successfully and carries the
correlation id whose string form is 0; a pending call is registered under
that exact key, yet the listener discards the message and leaves the
pending-call map unchanged, because the guard on `json.id` treats the
number 0 as falsy. -/
theorem demux_misses_zero_id :
    parseSseResponse ("data: \x7b\"id\":0,\"result\":\x7b\x7d\x7d".data)
      = Except.ok (Json.obj [(("id".data), Json.num 0), (("result".data), Json.obj [])])
    ∧ (Json.num 0).toJsChars = "0".data
    ∧ mapGet? (mkConn 0 [(("0".data), ⟨0⟩)]).responsePromises ("0".data) = some ⟨0⟩
    ∧ processSseEvent (mkConn 0 [(("0".data), ⟨0⟩)])
        ("data: \x7b\"id\":0,\"result\":\x7b\x7d\x7d".data)
      = (mkConn 0 [(("0".data), ⟨0⟩)],
         DemuxResult.unmatched (Json.obj [(("id".data), Json.num 0), (("result".data), Json.obj [])])) :=
  ⟨rfl, rfl, rfl, rfl⟩

/-- C1 amended: for every complete frame whose payload parses to a message,
when the id field of the message is truthy and a pending call is registered
under its string form, exactly that pending call is resolved with the
message, its entry is removed, and every other pending entry is unchanged;
when the id field is falsy or absent, or no pending call is registered under
it, the message is discarded and the pending-call map is unchanged. -/
theorem demux_routes_by_truthy_id (conn : Connection) (ev : List Char) (json : Json)
    (hparse : parseSseResponse ev = Except.ok json) :
    (∀ idv call, json.getField ("id".data) = some idv → idv.truthy = true →
        mapGet? conn.responsePromises idv.toJsChars = some call →
        processSseEvent conn ev =
          ({ conn with responsePromises := mapDelete conn.responsePromises idv.toJsChars },
           DemuxResult.resolved idv.toJsChars call json)
        ∧ mapHas (mapDelete conn.responsePromises idv.toJsChars) idv.toJsChars = false
        ∧ (∀ k, k ≠ idv.toJsChars →
            mapGet? (mapDelete conn.responsePromises idv.toJsChars) k
              = mapGet? conn.responsePromises k))
    ∧ (jsTruthy (json.getField ("id".data)) = false →
        processSseEvent conn ev = (conn, DemuxResult.unmatched json))
    ∧ (∀ idv, json.getField ("id".data) = some idv →
        mapGet? conn.responsePromises idv.toJsChars = none →
        processSseEvent conn ev = (conn, DemuxResult.unmatched json)) := by
  refine ⟨?_, ?_, ?_⟩
  · intro idv call hid htruthy hget
    refine ⟨?_, mapHas_delete_self _ _, fun k hk => mapGet?_delete_ne _ _ _ hk⟩
    simp [processSseEvent, hparse, hid, htruthy, hget]
  · intro hfalsy
    cases hidv : json.getField ("id".data) with
    | none => simp [processSseEvent, hparse, hidv]
    | some idv =>
      have ht : idv.truthy = false := by simpa [jsTruthy, hidv] using hfalsy
      simp [processSseEvent, hparse, hidv, ht]
  · intro idv hid hnone
    by_cases htr : idv.truthy
    · simp [processSseEvent, hparse, hid, htr, hnone]
    · simp [processSseEvent, hparse, hid, htr]

/-- Closed instance of the amended C1: the frame carrying the string id 7,
decoded from a buffer in which it is followed by a blank line, resolves
exactly the pending call registered under 7 and leaves the entry under 9
untouched. -/
theorem demux_routes_by_truthy_id_witness :
    extractSseEvents ("data: \x7b\"id\":\"7\",\"result\":\x7b\x7d\x7d\n\n".data)
      = (["data: \x7b\"id\":\"7\",\"result\":\x7b\x7d\x7d".data], [])
    ∧ processSseEvent (mkConn 0 [(("7".data), ⟨0⟩), (("9".data), ⟨1⟩)])
        ("data: \x7b\"id\":\"7\",\"result\":\x7b\x7d\x7d".data)
      = ({ mkConn 0 [(("7".data), ⟨0⟩), (("9".data), ⟨1⟩)] with
            responsePromises :=
              mapDelete (mkConn 0 [(("7".data), ⟨0⟩), (("9".data), ⟨1⟩)]).responsePromises ("7".data) },
         DemuxResult.resolved ("7".data) ⟨0⟩
           (Json.obj [(("id".data), Json.str ("7".data)), (("result".data), Json.obj [])]))
    ∧ mapGet? (mapDelete (mkConn 0 [(("7".data), ⟨0⟩), (("9".data), ⟨1⟩)]).responsePromises ("7".data))
        ("9".data) = some ⟨1⟩ :=
  ⟨rfl,
   ((demux_routes_by_truthy_id (mkConn 0 [(("7".data), ⟨0⟩), (("9".data), ⟨1⟩)])
      ("data: \x7b\"id\":\"7\",\"result\":\x7b\x7d\x7d".data)
      (Json.obj [(("id".data), Json.str ("7".data)), (("result".data), Json.obj [])]) rfl).1
        (Json.str ("7".data)) ⟨0⟩ rfl rfl rfl).1,
   (((demux_routes_by_truthy_id (mkConn 0 [(("7".data), ⟨0⟩), (("9".data), ⟨1⟩)])
      ("data: \x7b\"id\":\"7\",\"result\":\x7b\x7d\x7d".data)
      (Json.obj [(("id".data), Json.str ("7".data)), (("result".data), Json.obj [])]) rfl).1
        (Json.str ("7".data)) ⟨0⟩ rfl rfl rfl).2.2 ("9".data) (by decide)).trans rfl⟩

/-- C2: in every dispatch the pending call is registered in the connection
map strictly before the request envelope is transmitted to the submission
endpoint (the step trace is registration first, transmission second, and the
id is already registered in the post-registration state that transmission
observes), so an answer frame that arrives immediately after transmission
and carries the generated correlation id always finds the entry and resolves
exactly that call. -/
theorem register_before_transmit (conn : Connection) (method : List Char) (params : Json)
    (draw : Fin 1000000) (call : PendingCall) :
    (forwardToTargetDispatch conn method params draw call).2
      = [DispatchStep.registerPending (generatedRequestId draw),
         DispatchStep.transmitRequest conn.postUrl
           { jsonrpc := "2.0".data, method := method, params := params,
             id := generatedRequestId draw }]
    ∧ mapGet? (forwardToTargetDispatch conn method params draw call).1.responsePromises
        (generatedRequestId draw) = some call
    ∧ (∀ ev json, parseSseResponse ev = Except.ok json →
        json.getField ("id".data) = some (Json.str (generatedRequestId draw)) →
        processSseEvent (forwardToTargetDispatch conn method params draw call).1 ev
          = ({ (forwardToTargetDispatch conn method params draw call).1 with
                responsePromises :=
                  mapDelete
                    (forwardToTargetDispatch conn method params draw call).1.responsePromises
                    (generatedRequestId draw) },
             DemuxResult.resolved (generatedRequestId draw) call json)) := by
  refine ⟨rfl, mapGet?_set_self _ _ _, ?_⟩
  intro ev json hparse hid
  have hfalse : (generatedRequestId draw).isEmpty = false := by
    cases hgen : generatedRequestId draw with
    | nil => exact absurd hgen (generatedRequestId_ne_nil draw)
    | cons a l => rfl
  have htr : (Json.str (generatedRequestId draw)).truthy = true := by
    simp [Json.truthy, hfalse]
  have hget : mapGet? (forwardToTargetDispatch conn method params draw call).1.responsePromises
      (generatedRequestId draw) = some call := mapGet?_set_self _ _ _
  simp [processSseEvent, hparse, hid, htr, Json.toJsChars, hget]

/-- Closed instance of C2: after dispatching with the draw 7 on a connection
with no pending calls, the frame carrying the string id 7 immediately
resolves the freshly registered call. -/
theorem register_before_transmit_witness :
    processSseEvent (forwardToTargetDispatch (mkConn 0 []) ("tools/list".data) (Json.obj [])
        (7 : Fin 1000000) ⟨3⟩).1 ("data: \x7b\"id\":\"7\",\"result\":\x7b\x7d\x7d".data)
      = ({ (forwardToTargetDispatch (mkConn 0 []) ("tools/list".data) (Json.obj [])
            (7 : Fin 1000000) ⟨3⟩).1 with
            responsePromises :=
              mapDelete (forwardToTargetDispatch (mkConn 0 []) ("tools/list".data)
                (Json.obj []) (7 : Fin 1000000) ⟨3⟩).1.responsePromises
                (generatedRequestId (7 : Fin 1000000)) },
         DemuxResult.resolved (generatedRequestId (7 : Fin 1000000)) ⟨3⟩
           (Json.obj [(("id".data), Json.str ("7".data)), (("result".data), Json.obj [])])) :=
  (register_before_transmit (mkConn 0 []) ("tools/list".data) (Json.obj [])
      (7 : Fin 1000000) ⟨3⟩).2.2
    ("data: \x7b\"id\":\"7\",\"result\":\x7b\x7d\x7d".data)
    (Json.obj [(("id".data), Json.str ("7".data)), (("result".data), Json.obj [])]) rfl rfl

/-- C3: frame parsing first attempts the final data fragment as a single
message; only when that parse fails does it attempt the concatenation of all
data fragments of the frame, and only when both fail does it report a parse
failure. -/
theorem sse_parse_last_then_concat (s lastLine : List Char)
    (hlast : (sseDataLines s).getLast? = some lastLine) :
    (∀ j, Json.parse lastLine = some j → parseSseResponse s = Except.ok j)
    ∧ (Json.parse lastLine = none →
        (∀ j, Json.parse (sseDataLines s).flatten = some j → parseSseResponse s = Except.ok j)
        ∧ (Json.parse (sseDataLines s).flatten = none →
            parseSseResponse s = Except.error SseError.parseFailed)) := by
  refine ⟨?_, ?_⟩
  · intro j hj
    simp [parseSseResponse, hlast, hj]
  · intro hnone
    refine ⟨fun j hj => ?_, fun hn2 => ?_⟩
    · simp [parseSseResponse, hlast, hnone, hj]
    · simp [parseSseResponse, hlast, hnone, hn2]

/-- Closed instance of C3: a payload split across two data lines of one
frame, whose final fragment alone is unparsable, is reconstructed by
concatenation and parses successfully. -/
theorem sse_parse_last_then_concat_witness :
    Json.parse ("lt\":\x7b\x7d\x7d".data) = none
    ∧ sseDataLines ("data: \x7b\"id\":\"7\",\"resu\ndata: lt\":\x7b\x7d\x7d".data)
        = ["\x7b\"id\":\"7\",\"resu".data, "lt\":\x7b\x7d\x7d".data]
    ∧ parseSseResponse ("data: \x7b\"id\":\"7\",\"resu\ndata: lt\":\x7b\x7d\x7d".data)
        = Except.ok (Json.obj [(("id".data), Json.str ("7".data)), (("result".data), Json.obj [])]) :=
  ⟨rfl, rfl,
   ((sse_parse_last_then_concat ("data: \x7b\"id\":\"7\",\"resu\ndata: lt\":\x7b\x7d\x7d".data)
        ("lt\":\x7b\x7d\x7d".data) rfl).2 rfl).1
     (Json.obj [(("id".data), Json.str ("7".data)), (("result".data), Json.obj [])]) rfl⟩

/-- C10: a decoded message whose id field is absent or falsy (the number 0,
the empty string, or null) is never matched to any pending call, whatever
the pending-call map holds, so a pending call registered under the
corresponding string key is left to its own timeout. -/
theorem demux_ignores_falsy_id (conn : Connection) (ev : List Char) (json : Json)
    (hparse : parseSseResponse ev = Except.ok json)
    (hfalsy : jsTruthy (json.getField ("id".data)) = false) :
    processSseEvent conn ev = (conn, DemuxResult.unmatched json)
    ∧ jsTruthy none = false
    ∧ Json.truthy (Json.num 0) = false
    ∧ Json.truthy (Json.str []) = false
    ∧ Json.truthy Json.null = false := by
  refine ⟨?_, rfl, by decide, rfl, rfl⟩
  cases hidv : json.getField ("id".data) with
  | none => simp [processSseEvent, hparse, hidv]
  | some idv =>
    have ht : idv.truthy = false := by simpa [jsTruthy, hidv] using hfalsy
    simp [processSseEvent, hparse, hidv, ht]

/-- Closed instance of C10: a pending call is registered under the key 0,
and the frame carrying the numeric id 0 is discarded without touching the
map. -/
theorem demux_ignores_falsy_id_witness :
    mapGet? (mkConn 0 [(("0".data), ⟨5⟩)]).responsePromises ("0".data) = some ⟨5⟩
    ∧ processSseEvent (mkConn 0 [(("0".data), ⟨5⟩)]) ("data: \x7b\"id\":0\x7d".data)
        = (mkConn 0 [(("0".data), ⟨5⟩)], DemuxResult.unmatched (Json.obj [(("id".data), Json.num 0)])) :=
  ⟨rfl,
   (demux_ignores_falsy_id (mkConn 0 [(("0".data), ⟨5⟩)]) ("data: \x7b\"id\":0\x7d".data)
      (Json.obj [(("id".data), Json.num 0)]) rfl rfl).1⟩
